import Mathlib

/-
  Verification development for the aletheia-phenom experimentation loop.

  The embedding covers:
  - the shared observation / action / discovery vocabulary
    (crates/inference_engine/src/lib.rs, crates/sim_engine/src/lib.rs),
  - the curiosity-driven Q-learning agent
    (crates/inference_engine/src/lib.rs, QLearningAgent),
  - the Session loop driver and its Bridge mapping functions
    (crates/app_frontend/src/session.rs).

  Modelling conventions:
  - f64 scalars are idealised as exact rationals in the executable agent
    model; the two transcendental library calls of the agent (f64::ln in
    discretize, f64::sqrt in dist) are supplied as explicit function
    parameters (FloatFns), since their values are platform library
    approximations.  The claims about the discretization formula itself
    are settled against a separate real-number relation (foveateRel)
    that fixes the logarithm to the mathematical Real.log.
  - The one place where an IEEE special value is reachable, the Q-value
    table (get_max_q folds with f64::NEG_INFINITY), uses an explicit
    four-variant float surrogate F64 with IEEE arithmetic on the
    infinities, so the degenerate path of the code is modelled honestly.
  - Rust HashMap tables are modelled as association lists; HashMap
    iteration order is unspecified in Rust, and no settled claim depends
    on it.  HashMap::insert (replace or append) is ainsert, get is
    alookup.
  - The StateKey string "a_b_c" built by format! is modelled as the
    integer triple (a, b, c); the format is an injective join of the
    three integers, so nothing is lost.
  - Math::random() draws are passed in as explicit oracle arguments
    (rand1 for the explore/exploit test, rand2 for the random action).
-/

/-- A 3-component vector, modelling the Rust array type of three scalars. -/
structure V3 (R : Type) where
  x : R
  y : R
  z : R
deriving DecidableEq, Repr

/-- StateKey: the discretized key "a_b_c" of inference_engine, modelled as the
integer triple that the format string joins injectively. -/
abbrev StateKey := ℤ × ℤ × ℤ

/-- DiscreteAction (inference_engine lines 14-20). -/
inductive DiscreteAction where
  | noop
  | kickXPos
  | kickXNeg
  | kickYPos
  | kickYNeg
  | kickZPos
  | kickZNeg
deriving DecidableEq, Repr

/-- AgentAction (inference_engine lines 22-28), parameterised by the scalar
type standing for f64. -/
inductive AgentAction (R : Type) where
  | flipCell (r c : ℕ)
  | perturb (which : ℕ) (delta : R)
  | setParam (name : String) (val : R)
  | noop
deriving DecidableEq

/-- AgentObservation (inference_engine lines 30-35). -/
inductive AgentObservation (R : Type) where
  | gridSummary (width height : ℕ)
  | stateVec (v : V3 R)
  | none
deriving DecidableEq

/-- DiscoveryEvent (inference_engine lines 7-11). -/
inductive DiscoveryEvent where
  | text (s : String)
  | insight (topic content : String)
deriving DecidableEq, Repr

/-- Association list lookup, modelling HashMap::get. -/
def alookup {κ ν : Type} [DecidableEq κ] : List (κ × ν) → κ → Option ν
  | [], _ => Option.none
  | (k, v) :: t, k₀ => if k = k₀ then some v else alookup t k₀

/-- Association list insert, modelling HashMap::insert (replace the value of
an existing key, otherwise add the binding). -/
def ainsert {κ ν : Type} [DecidableEq κ] : List (κ × ν) → κ → ν → List (κ × ν)
  | [], k₀, v₀ => [(k₀, v₀)]
  | (k, v) :: t, k₀, v₀ => if k = k₀ then (k₀, v₀) :: t else (k, v) :: ainsert t k₀ v₀

/-- Surrogate for f64 on the Q-value path: an exact rational plus the IEEE
special values.  get_max_q folds with f64::NEG_INFINITY, so negInf (and the
values it produces downstream) must be representable. -/
inductive F64 where
  | nan
  | negInf
  | posInf
  | fin (q : ℚ)
deriving DecidableEq, Repr

/-- IEEE negation on the surrogate. -/
def fneg : F64 → F64
  | F64.nan => F64.nan
  | F64.negInf => F64.posInf
  | F64.posInf => F64.negInf
  | F64.fin q => F64.fin (-q)

/-- IEEE addition on the surrogate (exact in the finite case). -/
def fadd : F64 → F64 → F64
  | F64.fin a, F64.fin b => F64.fin (a + b)
  | F64.nan, _ => F64.nan
  | _, F64.nan => F64.nan
  | F64.negInf, F64.posInf => F64.nan
  | F64.posInf, F64.negInf => F64.nan
  | F64.negInf, _ => F64.negInf
  | _, F64.negInf => F64.negInf
  | F64.posInf, _ => F64.posInf
  | _, F64.posInf => F64.posInf

/-- IEEE subtraction: a - b is a + (-b). -/
def fsub (a b : F64) : F64 := fadd a (fneg b)

/-- IEEE multiplication on the surrogate (exact in the finite case). -/
def fmul : F64 → F64 → F64
  | F64.fin a, F64.fin b => F64.fin (a * b)
  | F64.nan, _ => F64.nan
  | _, F64.nan => F64.nan
  | F64.fin a, F64.negInf => if a = 0 then F64.nan else if 0 < a then F64.negInf else F64.posInf
  | F64.fin a, F64.posInf => if a = 0 then F64.nan else if 0 < a then F64.posInf else F64.negInf
  | F64.negInf, F64.fin b => if b = 0 then F64.nan else if 0 < b then F64.negInf else F64.posInf
  | F64.posInf, F64.fin b => if b = 0 then F64.nan else if 0 < b then F64.posInf else F64.negInf
  | F64.negInf, F64.negInf => F64.posInf
  | F64.negInf, F64.posInf => F64.negInf
  | F64.posInf, F64.negInf => F64.negInf
  | F64.posInf, F64.posInf => F64.posInf

/-- f64::max: if one operand is NaN the other is returned, otherwise the
larger of the two. -/
def fmax : F64 → F64 → F64
  | F64.nan, b => b
  | a, F64.nan => a
  | F64.negInf, b => b
  | a, F64.negInf => a
  | F64.posInf, _ => F64.posInf
  | _, F64.posInf => F64.posInf
  | F64.fin a, F64.fin b => F64.fin (max a b)

/-- PartialOrd::partial_cmp for the surrogate: Option.none exactly when a NaN
is involved. -/
def fcmp : F64 → F64 → Option Ordering
  | F64.nan, _ => Option.none
  | _, F64.nan => Option.none
  | F64.negInf, F64.negInf => some Ordering.eq
  | F64.negInf, _ => some Ordering.lt
  | _, F64.negInf => some Ordering.gt
  | F64.posInf, F64.posInf => some Ordering.eq
  | F64.posInf, _ => some Ordering.gt
  | _, F64.posInf => some Ordering.lt
  | F64.fin a, F64.fin b =>
      if a < b then some Ordering.lt else if b < a then some Ordering.gt else some Ordering.eq

/-- The two f64 library calls used by the agent, supplied as parameters of
the executable model: natural logarithm (inference_engine line 83) and
square root (line 113). -/
structure FloatFns where
  log : ℚ → ℚ
  sqrt : ℚ → ℚ

/-- Q-table type: StateKey to a map from DiscreteAction to an f64 value
(inference_engine line 46). -/
abbrev QTable := List (StateKey × List (DiscreteAction × F64))

/-- World model type: (StateKey, DiscreteAction) to a predicted continuous
state (inference_engine line 50). -/
abbrev WorldModel := List ((StateKey × DiscreteAction) × V3 ℚ)

/-- QLearningAgent state (inference_engine lines 44-60). -/
structure QLearningAgent where
  q_table : QTable
  world_model : WorldModel
  last_action : DiscreteAction
  last_state_key : StateKey
  last_state_vec : V3 ℚ
  epsilon : ℚ
  alpha : ℚ
  gamma : ℚ
deriving DecidableEq

/-- QLearningAgent::new (inference_engine lines 63-74).  The literals 0.5,
0.1, 0.9 are written as exact rationals; the key "0_0_0" is the zero
triple. -/
def QLearningAgent.new : QLearningAgent :=
  { q_table := []
    world_model := []
    last_action := DiscreteAction.noop
    last_state_key := (0, 0, 0)
    last_state_vec := ⟨0, 0, 0⟩
    epsilon := 1/2
    alpha := 1/10
    gamma := 9/10 }

/-- Truncation toward zero of a rational, the rounding used by an `as`
cast from f64 to an integer type in Rust. -/
def ratTrunc (x : ℚ) : ℤ := if 0 ≤ x then ⌊x⌋ else -⌊-x⌋

/-- The saturating f64-to-i32 cast of Rust. -/
def i32cast (x : ℚ) : ℤ := max (-(2 ^ 31)) (min (2 ^ 31 - 1) (ratTrunc x))

/-- The per-axis foveated transform of discretize (inference_engine lines
79-85): the i32 cast of signum(v) * ln(|v| + 1) * 4.  f64::signum is 1 for
0 and positive values, -1 for negative values. -/
def foveate (fns : FloatFns) (v : ℚ) : ℤ :=
  i32cast ((if v < 0 then (-1 : ℚ) else 1) * fns.log (|v| + 1) * 4)

/-- QLearningAgent::discretize (inference_engine lines 78-88): the three
foveated axes joined into one StateKey. -/
def discretize (fns : FloatFns) (s : V3 ℚ) : StateKey :=
  (foveate fns s.x, foveate fns s.y, foveate fns s.z)

/-- QLearningAgent::map_action (inference_engine lines 90-101): each kick is
a perturbation of magnitude 5 along one axis. -/
def map_action (a : DiscreteAction) : AgentAction ℚ :=
  match a with
  | DiscreteAction.noop => AgentAction.noop
  | DiscreteAction.kickXPos => AgentAction.perturb 0 5
  | DiscreteAction.kickXNeg => AgentAction.perturb 0 (-5)
  | DiscreteAction.kickYPos => AgentAction.perturb 1 5
  | DiscreteAction.kickYNeg => AgentAction.perturb 1 (-5)
  | DiscreteAction.kickZPos => AgentAction.perturb 2 5
  | DiscreteAction.kickZNeg => AgentAction.perturb 2 (-5)

/-- QLearningAgent::get_max_q (inference_engine lines 103-109): fold of
f64::max over the values of the entry, started at f64::NEG_INFINITY, when
the key is present; 0.0 when the key is absent.  Note the fold over an
empty value map yields NEG_INFINITY, not 0. -/
def get_max_q (t : QTable) (k : StateKey) : F64 :=
  match alookup t k with
  | some actions => actions.foldl (fun acc p => fmax acc p.2) F64.negInf
  | Option.none => F64.fin 0

/-- QLearningAgent::dist (inference_engine lines 112-114): Euclidean
distance, with the square root supplied by FloatFns. -/
def dist (fns : FloatFns) (a b : V3 ℚ) : ℚ :=
  fns.sqrt ((a.x - b.x) ^ 2 + (a.y - b.y) ^ 2 + (a.z - b.z) ^ 2)

/-- Lookup of a Q-value: table entry for the key, then the action inside. -/
def qlookup (t : QTable) (k : StateKey) (a : DiscreteAction) : Option F64 :=
  match alookup t k with
  | some m => alookup m a
  | Option.none => Option.none

/-- The random discrete action of the explore branch (inference_engine lines
166-171): (rand2 * 7.0) as u8, matched against 0 to 5, anything else giving
Noop.  The u8 cast saturates at 0 and 255. -/
def randomAction (rand2 : ℚ) : DiscreteAction :=
  match max 0 (min 255 (ratTrunc (rand2 * 7))) with
  | 0 => DiscreteAction.kickXPos
  | 1 => DiscreteAction.kickXNeg
  | 2 => DiscreteAction.kickYPos
  | 3 => DiscreteAction.kickYNeg
  | 4 => DiscreteAction.kickZPos
  | 5 => DiscreteAction.kickZNeg
  | _ => DiscreteAction.noop

/-- Iterator::max_by with the value comparator of the exploit branch
(inference_engine lines 174-177): partial_cmp with unwrap_or(Equal), the
last of several maxima winning. -/
def maxBySnd (l : List (DiscreteAction × F64)) : Option (DiscreteAction × F64) :=
  l.foldl
    (fun acc p =>
      match acc with
      | Option.none => some p
      | some q => if (fcmp q.2 p.2).getD Ordering.eq = Ordering.gt then some q else some p)
    Option.none

/-- The content string of an Insight (inference_engine line 191).  The
two-decimal rendering of the f64 format string is abstracted as the rounded
number of hundredths. -/
def insightContent (q : ℚ) : String :=
  "Physics violation? Predicted vs Actual error: " ++ toString (round (q * 100)) ++
    ". Reward spike!"

/-- The epsilon decay of a tick (inference_engine line 185): multiply by
0.995 while above 0.05, otherwise leave unchanged. -/
def decayEps (e : ℚ) : ℚ := if 1/20 < e then e * (199/200) else e

/-- The surprise signal (inference_engine lines 127-138): prediction error
times gain 5 capped at 50 when the world model has an entry for
(last_state_key, last_action), else the first-time bonus 5. -/
def surpriseOf (fns : FloatFns) (ag : QLearningAgent) (current_state : V3 ℚ) : ℚ :=
  match alookup ag.world_model (ag.last_state_key, ag.last_action) with
  | some predicted_state => min (dist fns predicted_state current_state * 5) 50
  | Option.none => 5

/-- The epsilon-greedy decision (inference_engine lines 164-178): with
rand1 below epsilon, a random action; otherwise the exploit branch, whose
entry(...).or_default() inserts an empty value map for the current key when
it is absent, and which picks the stored action of maximal value (Noop on
an empty map).  Returns the table as mutated by the branch together with
the chosen action. -/
def decideStep (q_table1 : QTable) (current_state_key : StateKey)
    (epsilon r1 r2 : ℚ) : QTable × DiscreteAction :=
  if r1 < epsilon then
    (q_table1, randomAction r2)
  else
    let q_table2 :=
      if (alookup q_table1 current_state_key).isSome then q_table1
      else ainsert q_table1 current_state_key []
    let values := (alookup q_table2 current_state_key).getD []
    (q_table2, ((maxBySnd values).map Prod.fst).getD DiscreteAction.noop)

/-- Experimenter::act for QLearningAgent (inference_engine lines 118-199).
rand1 and rand2 are the two Math::random() draws of the tick, in source
order.  Only StateVec observations are handled; anything else returns the
agent unchanged with Noop and no discovery. -/
def act (fns : FloatFns) (ag : QLearningAgent) (obs : AgentObservation ℚ)
    (base_reward : ℚ) (step : ℕ) (rand1 rand2 : ℚ) :
    QLearningAgent × AgentAction ℚ × Option DiscoveryEvent :=
  match obs with
  | AgentObservation.stateVec current_state =>
      -- 1. OBSERVE
      let current_state_key := discretize fns current_state
      -- 2. CALCULATE SURPRISE (prediction error)
      let prediction_key := (ag.last_state_key, ag.last_action)
      let surprise := surpriseOf fns ag current_state
      -- 3. UPDATE WORLD MODEL: moving average with weight 0.5
      let new_prediction :=
        match alookup ag.world_model prediction_key with
        | some prev =>
            ⟨1/2 * prev.x + 1/2 * current_state.x,
             1/2 * prev.y + 1/2 * current_state.y,
             1/2 * prev.z + 1/2 * current_state.z⟩
        | Option.none => current_state
      let world_model1 := ainsert ag.world_model prediction_key new_prediction
      -- 4. TOTAL REWARD = base + surprise
      let total_reward := base_reward + surprise
      -- 5. LEARN: get_max_q is evaluated before the entry insertions
      let max_future_q := get_max_q ag.q_table current_state_key
      let action_values := (alookup ag.q_table ag.last_state_key).getD []
      let current_q := (alookup action_values ag.last_action).getD (F64.fin 0)
      let new_q :=
        fadd current_q
          (fmul (F64.fin ag.alpha)
            (fsub (fadd (F64.fin total_reward) (fmul (F64.fin ag.gamma) max_future_q))
              current_q))
      let q_table1 := ainsert ag.q_table ag.last_state_key (ainsert action_values ag.last_action new_q)
      -- 6. DECIDE (epsilon-greedy)
      let dres := decideStep q_table1 current_state_key ag.epsilon rand1 rand2
      -- 7. MEMORY and epsilon decay
      let epsilon1 := decayEps ag.epsilon
      -- 8. REPORT
      let discovery :=
        if surprise > 25 ∧ step % 60 = 0 then
          some (DiscoveryEvent.insight "Anomaly Detected" (insightContent (surprise / 5)))
        else Option.none
      ({ q_table := dres.1
         world_model := world_model1
         last_action := dres.2
         last_state_key := current_state_key
         last_state_vec := current_state
         epsilon := epsilon1
         alpha := ag.alpha
         gamma := ag.gamma },
       map_action dres.2, discovery)
  | _ => (ag, AgentAction.noop, Option.none)

/-
  Real-number semantics of the discretization (for the claims about the
  discretization formula itself, where the logarithm is the mathematical
  one).  The relation holds between an input axis value and the integer the
  code computes for it: the saturating i32 cast, which truncates toward
  zero, of signum(v) * ln(|v| + 1) * 4 (inference_engine lines 79-85).
  This is stated as a relation rather than a function so that the model
  stays free of noncomputable definitions.
-/

/-- Per-axis foveated transform over the reals (inference_engine lines
79-85), as a relation: n is the saturating truncating i32 cast of
signum(v) * Real.log (|v| + 1) * 4. -/
def foveateRel (v : ℝ) (n : ℤ) : Prop :=
  let t : ℝ := (if v < 0 then (-1 : ℝ) else 1) * Real.log (|v| + 1) * 4
  n = max (-(2 ^ 31)) (min (2 ^ 31 - 1) (if 0 ≤ t then ⌊t⌋ else -⌊-t⌋))

/-- discretize over the reals (inference_engine lines 78-88): the three
axes related componentwise, joined into one StateKey. -/
def discretizeRel (s : V3 ℝ) (k : StateKey) : Prop :=
  foveateRel s.x k.1 ∧ foveateRel s.y k.2.1 ∧ foveateRel s.z k.2.2

/-
  Session and Bridge (crates/app_frontend/src/session.rs) and the world
  boundary (crates/sim_engine/src/lib.rs).  The trait objects are modelled
  as records of pure state-passing functions over an abstract state type σ
  and an abstract scalar type R standing for f64; as_experimentable is the
  optional record of the three extension methods, acting on the same state.
-/

/-- sim_engine Action (lib.rs lines 62-72). -/
inductive SimAction (R : Type) where
  | flipCell (r c : ℕ)
  | perturb (which : ℕ) (delta : R)
  | setParam (name : String) (value : R)
  | noop
deriving DecidableEq

/-- sim_engine Observation (lib.rs lines 75-85). -/
inductive SimObservation (R : Type) where
  | gridSummary (alive width height : ℕ)
  | stateVec (v : V3 R)
  | text (s : String)
  | none
deriving DecidableEq

/-- sim_engine SimState (lib.rs lines 38-48), the render snapshot. -/
inductive SimState (R : Type) where
  | grid (offset_x offset_y : ℤ) (width height : ℕ) (cells : List Bool)
  | points (l : List (R × R × R))
deriving DecidableEq

/-- The Experimentable extension trait (sim_engine lib.rs lines 88-97). -/
structure Experimentable (σ R : Type) where
  apply_action : σ → SimAction R → σ
  observe : σ → SimObservation R
  reward : σ → R

/-- The Simulation trait (sim_engine lib.rs lines 15-34): step, get_state,
and the optional experimentable capability.  set_param is presentation
plumbing not reached by any settled claim and is omitted. -/
structure World (σ R : Type) where
  step : σ → σ
  get_state : σ → SimState R
  experimentable : Option (Experimentable σ R)

/-- The Experimenter capability as the Session consumes it: session.rs line
27 invokes act with the bridged observation and the step counter only.
(The Experimenter trait of inference_engine declares a third parameter, the
scalar reward, which this call site does not supply; the Session model
follows session.rs, the authority for the loop driver.) -/
structure Agent (α R : Type) where
  act : α → AgentObservation R → ℕ → α × AgentAction R × Option DiscoveryEvent

/-- Session (session.rs lines 5-9): one world, one agent, a step counter. -/
structure Session (σ α R : Type) where
  simImpl : World σ R
  sim : σ
  agentImpl : Agent α R
  agent : α
  step_count : ℕ

/-- Session::new (session.rs lines 12-14). -/
def Session.new {σ α R : Type} (simImpl : World σ R) (sim : σ)
    (agentImpl : Agent α R) (agent : α) : Session σ α R :=
  { simImpl := simImpl, sim := sim, agentImpl := agentImpl, agent := agent, step_count := 0 }

/-- Session::map_obs (session.rs lines 47-53): GridSummary drops the alive
count, StateVec passes through, everything else maps to None.  The Rust
method takes &self but never reads it, so the Bridge is modelled as a free
pure function. -/
def Session.map_obs {R : Type} :
    SimObservation R → AgentObservation R
  | SimObservation.gridSummary _ width height => AgentObservation.gridSummary width height
  | SimObservation.stateVec v => AgentObservation.stateVec v
  | _ => AgentObservation.none

/-- Session::map_act (session.rs lines 55-62): the four agent actions map
one-to-one onto the world actions; likewise a free pure function. -/
def Session.map_act {R : Type} :
    AgentAction R → SimAction R
  | AgentAction.flipCell r c => SimAction.flipCell r c
  | AgentAction.perturb which delta => SimAction.perturb which delta
  | AgentAction.setParam name val => SimAction.setParam name val
  | AgentAction.noop => SimAction.noop

/-- Session::tick (session.rs lines 18-40): if the world is experimentable,
observe, bridge, let the agent act on (observation, step_count), bridge the
action back and apply it; in all cases advance the world by step() and
increment the step counter; return the discovery of the tick. -/
def Session.tick {σ α R : Type} (s : Session σ α R) :
    Session σ α R × Option DiscoveryEvent :=
  match s.simImpl.experimentable with
  | some exp_sim =>
      let obs := exp_sim.observe s.sim
      let agent_obs := Session.map_obs obs
      let ares := s.agentImpl.act s.agent agent_obs s.step_count
      let discovery := ares.2.2
      let sim_action := Session.map_act ares.2.1
      let sim1 := exp_sim.apply_action s.sim sim_action
      ({ s with sim := s.simImpl.step sim1, agent := ares.1, step_count := s.step_count + 1 },
       discovery)
  | Option.none =>
      ({ s with sim := s.simImpl.step s.sim, step_count := s.step_count + 1 }, Option.none)

/-- n calls of tick(), keeping the session. -/
def tickIter {σ α R : Type} (n : ℕ) (s : Session σ α R) : Session σ α R :=
  (fun t => (Session.tick t).1)^[n] s

/-- GardenerAgent (inference_engine lines 203-209): the stateless no-op
baseline, always (Noop, no discovery). -/
def GardenerAgent {R : Type} : Agent Unit R :=
  { act := fun u _ _ => (u, AgentAction.noop, Option.none) }

/-
  Concrete instantiation material for closed evaluations.
-/

/-- A concrete FloatFns instantiation for closed evaluations: a shifted
identity for the logarithm (so ln (|v| + 1) is read as |v|) and the
identity for the square root.  The control-flow facts evaluated with it do
not depend on the numeric values these functions return. -/
def fns0 : FloatFns := { log := fun x => x - 1, sqrt := fun x => x }

/-- The zero-vector observation. -/
def obs0 : AgentObservation ℚ := AgentObservation.stateVec ⟨0, 0, 0⟩

/-- A concrete unit-increment world over ℕ whose experimentable extension
ignores every action, for instantiating the session theorems. -/
def natWorld : World ℕ ℚ :=
  { step := Nat.succ
    get_state := fun _ => SimState.points []
    experimentable :=
      some { apply_action := fun st _ => st
             observe := fun _ => SimObservation.none
             reward := fun _ => 0 } }

/-- n act() calls of the curiosity agent on a fixed observation, reward and
random draws (step argument 0), keeping the agent state. -/
def agentIter (fns : FloatFns) (obs : AgentObservation ℚ) (r r1 r2 : ℚ)
    (n : ℕ) (ag : QLearningAgent) : QLearningAgent :=
  (fun a => (act fns a obs r 0 r1 r2).1)^[n] ag

/-
  Helper lemmas.
-/

theorem alookup_ainsert_self {κ ν : Type} [DecidableEq κ]
    (l : List (κ × ν)) (k : κ) (v : ν) : alookup (ainsert l k v) k = some v := by
  induction l with
  | nil => simp [ainsert, alookup]
  | cons p t ih =>
      obtain ⟨k1, v1⟩ := p
      by_cases h : k1 = k
      · simp [ainsert, h, alookup]
      · simp [ainsert, h, alookup, ih]

theorem alookup_ainsert_of_ne {κ ν : Type} [DecidableEq κ]
    (l : List (κ × ν)) (k k' : κ) (v : ν) (h : k' ≠ k) :
    alookup (ainsert l k v) k' = alookup l k' := by
  have hne : ¬k = k' := fun hh => h hh.symm
  induction l with
  | nil => simp [ainsert, alookup, hne]
  | cons p t ih =>
      obtain ⟨k1, v1⟩ := p
      by_cases h1 : k1 = k
      · subst h1
        simp [ainsert, alookup, hne]
      · simp [ainsert, h1, alookup, ih]

/-- The epsilon field after an act() call on a StateVec observation is the
decayed epsilon. -/
theorem act_epsilon (fns : FloatFns) (ag : QLearningAgent) (s : V3 ℚ)
    (r : ℚ) (n : ℕ) (r1 r2 : ℚ) :
    ((act fns ag (AgentObservation.stateVec s) r n r1 r2).1).epsilon = decayEps ag.epsilon :=
  rfl

/-- Epsilon after n iterated act() calls is the n-fold decay. -/
theorem agentIter_epsilon (fns : FloatFns) (s : V3 ℚ) (r r1 r2 : ℚ) :
    ∀ (n : ℕ) (ag : QLearningAgent),
      (agentIter fns (AgentObservation.stateVec s) r r1 r2 n ag).epsilon =
        decayEps^[n] ag.epsilon := by
  intro n
  induction n with
  | zero => intro ag; rfl
  | succ m ih =>
      intro ag
      rw [agentIter, Function.iterate_succ_apply', Function.iterate_succ_apply']
      rw [show ((fun a => (act fns a (AgentObservation.stateVec s) r 0 r1 r2).1)^[m] ag) =
            agentIter fns (AgentObservation.stateVec s) r r1 r2 m ag from rfl]
      rw [act_epsilon, ih]

/-- While the decayed value stays above the 0.05 guard, the n-fold decay is an
exact geometric sequence. -/
theorem decay_pow_iter (e : ℚ) (he : 0 < e) :
    ∀ n : ℕ, 1/20 < e * (199/200) ^ n → decayEps^[n] e = e * (199/200) ^ n := by
  intro n
  induction n with
  | zero => intro _; simp
  | succ m ih =>
      intro h
      have hstep : e * (199/200) ^ (m + 1) ≤ e * (199/200) ^ m := by
        have : ((199:ℚ)/200) ^ (m + 1) ≤ (199/200) ^ m :=
          pow_le_pow_of_le_one (by norm_num) (by norm_num) (Nat.le_succ m)
        exact mul_le_mul_of_nonneg_left this (le_of_lt he)
      have hm : 1/20 < e * (199/200) ^ m := lt_of_lt_of_le h hstep
      rw [Function.iterate_succ_apply', ih hm, decayEps, if_pos hm]
      ring

/-- One tick of a Session holding the GardenerAgent, for a world that
ignores Noop: the world advances by step(), the counter increments, no
discovery. -/
theorem gardener_tick {σ R : Type} (w : World σ R)
    (h : ∀ exp, w.experimentable = some exp → ∀ st, exp.apply_action st SimAction.noop = st)
    (st : σ) (u : Unit) (k : ℕ) :
    Session.tick { simImpl := w, sim := st, agentImpl := GardenerAgent, agent := u, step_count := k } =
      ({ simImpl := w, sim := w.step st, agentImpl := GardenerAgent, agent := u,
         step_count := k + 1 }, Option.none) := by
  unfold Session.tick
  cases hexp : w.experimentable with
  | none => rfl
  | some exp =>
      simp only [GardenerAgent, Session.map_act, h exp hexp st]

/-- n ticks of a Session holding the GardenerAgent, for a world that
ignores Noop. -/
theorem gardener_tickIter {σ R : Type} (w : World σ R)
    (h : ∀ exp, w.experimentable = some exp → ∀ st, exp.apply_action st SimAction.noop = st)
    (s0 : σ) :
    ∀ n : ℕ, tickIter n (Session.new w s0 GardenerAgent ()) =
      { simImpl := w, sim := w.step^[n] s0, agentImpl := GardenerAgent, agent := (),
        step_count := n } := by
  intro n
  induction n with
  | zero => rfl
  | succ m ih =>
      rw [tickIter, Function.iterate_succ_apply',
        show ((fun t => (Session.tick t).1)^[m] (Session.new w s0 GardenerAgent ())) =
          tickIter m (Session.new w s0 GardenerAgent ()) from rfl, ih,
        gardener_tick w h _ _ m, Function.iterate_succ_apply']

/-- exp (1/8) is at most 8/7 and hence at most 6/5. -/
theorem exp_eighth_le : Real.exp (1/8) ≤ 6/5 := by
  have h1 : -(1/8 : ℝ) + 1 ≤ Real.exp (-(1/8)) := Real.add_one_le_exp (-(1/8))
  have h2 : Real.exp (1/8) * Real.exp (-(1/8)) = 1 := by
    rw [← Real.exp_add]
    norm_num
  nlinarith [Real.exp_pos ((1:ℝ)/8), Real.exp_pos (-(1:ℝ)/8)]

/-- Lower bound: 1/8 is at most ln (6/5). -/
theorem log_sixfifths_ge : (1/8 : ℝ) ≤ Real.log (6/5) :=
  (Real.le_log_iff_exp_le (by norm_num)).2 exp_eighth_le

/-- Upper bound: ln (6/5) is below 1/4. -/
theorem log_sixfifths_lt : Real.log (6/5) < 1/4 := by
  have h1 : (1/4 : ℝ) + 1 ≤ Real.exp (1/4) := Real.add_one_le_exp (1/4)
  exact (Real.log_lt_iff_lt_exp (by norm_num)).2 (by linarith)

/-- The axis value 0 discretizes to 0 under the real-semantics relation. -/
theorem foveateRel_zero : foveateRel 0 0 := by
  simp [foveateRel, Real.log_one]

/-- A freshly inserted Q-value is found again under its two keys. -/
theorem qlookup_ainsert_self (q0 : QTable) (lk : StateKey) (la : DiscreteAction)
    (inner : List (DiscreteAction × F64)) (nq : F64) :
    qlookup (ainsert q0 lk (ainsert inner la nq)) lk la = some nq := by
  simp [qlookup, alookup_ainsert_self]

/-- The decide step never disturbs the Q-value just written by the learn
step: it only ever adds an empty map under a key that is absent, and the
learn step has just made the previous StateKey present. -/
theorem decideStep_preserves (q0 : QTable) (lk : StateKey) (la : DiscreteAction)
    (inner : List (DiscreteAction × F64)) (nq : F64) (ck : StateKey) (eps r1 r2 : ℚ) :
    qlookup (decideStep (ainsert q0 lk (ainsert inner la nq)) ck eps r1 r2).1 lk la =
      some nq := by
  unfold decideStep
  by_cases hr : r1 < eps
  · rw [if_pos hr]
    exact qlookup_ainsert_self q0 lk la inner nq
  · rw [if_neg hr]
    by_cases hck : (alookup (ainsert q0 lk (ainsert inner la nq)) ck).isSome
    · simp only [hck, if_true, if_pos]
      exact qlookup_ainsert_self q0 lk la inner nq
    · have hnone : alookup (ainsert q0 lk (ainsert inner la nq)) ck = Option.none :=
        Option.not_isSome_iff_eq_none.1 hck
      have hne : lk ≠ ck := by
        intro he
        rw [← he, alookup_ainsert_self] at hnone
        exact Option.noConfusion hnone
      simp only [hck, if_false]
      show qlookup (ainsert (ainsert q0 lk (ainsert inner la nq)) ck []) lk la = some nq
      unfold qlookup
      rw [alookup_ainsert_of_ne _ _ _ _ hne, alookup_ainsert_self]
      exact alookup_ainsert_self inner la nq

/-
  Claim theorems.
-/

/-- Claim C1 (code evaluation): Session::tick never consults the reward
function of the world.  The discovery of a tick is exactly the discovery of
act applied to the bridged observation and the step counter (no reward
argument exists at the call site), and every observable component of tick
is unchanged when the reward function of the world is replaced by an
arbitrary other one. -/
theorem C1_tick_ignores_reward (σ α R : Type) (stepf : σ → σ) (gst : σ → SimState R)
    (exp : Experimentable σ R) (rfun : σ → R) (simst : σ) (agI : Agent α R) (a : α) (n : ℕ) :
    (Session.tick (⟨⟨stepf, gst, some exp⟩, simst, agI, a, n⟩ : Session σ α R)).2 =
      (agI.act a (Session.map_obs (exp.observe simst)) n).2.2 ∧
    (Session.tick (⟨⟨stepf, gst, some exp⟩, simst, agI, a, n⟩ : Session σ α R)).1.sim =
      (Session.tick (⟨⟨stepf, gst, some ⟨exp.apply_action, exp.observe, rfun⟩⟩,
        simst, agI, a, n⟩ : Session σ α R)).1.sim ∧
    (Session.tick (⟨⟨stepf, gst, some exp⟩, simst, agI, a, n⟩ : Session σ α R)).1.agent =
      (Session.tick (⟨⟨stepf, gst, some ⟨exp.apply_action, exp.observe, rfun⟩⟩,
        simst, agI, a, n⟩ : Session σ α R)).1.agent ∧
    (Session.tick (⟨⟨stepf, gst, some exp⟩, simst, agI, a, n⟩ : Session σ α R)).1.step_count =
      (Session.tick (⟨⟨stepf, gst, some ⟨exp.apply_action, exp.observe, rfun⟩⟩,
        simst, agI, a, n⟩ : Session σ α R)).1.step_count ∧
    (Session.tick (⟨⟨stepf, gst, some exp⟩, simst, agI, a, n⟩ : Session σ α R)).2 =
      (Session.tick (⟨⟨stepf, gst, some ⟨exp.apply_action, exp.observe, rfun⟩⟩,
        simst, agI, a, n⟩ : Session σ α R)).2 :=
  ⟨rfl, rfl, rfl, rfl, rfl⟩

/-- Claim C8: the Bridge mapping functions are pure total functions on
every constructor: Text and None world observations map to the agent None,
GridSummary and StateVec map across (GridSummary dropping the alive count),
and each of the four agent actions maps to the corresponding world action
(Noop to Noop); no input is rejected. -/
theorem C8_bridge_total (R : Type) :
    (∀ s : String, Session.map_obs (SimObservation.text s) = (AgentObservation.none : AgentObservation R)) ∧
    Session.map_obs (SimObservation.none : SimObservation R) = AgentObservation.none ∧
    (∀ alive width height : ℕ, Session.map_obs (SimObservation.gridSummary alive width height : SimObservation R) =
      AgentObservation.gridSummary width height) ∧
    (∀ v : V3 R, Session.map_obs (SimObservation.stateVec v) = AgentObservation.stateVec v) ∧
    (∀ r c : ℕ, Session.map_act (AgentAction.flipCell r c : AgentAction R) = SimAction.flipCell r c) ∧
    (∀ (which : ℕ) (delta : R), Session.map_act (AgentAction.perturb which delta) = SimAction.perturb which delta) ∧
    (∀ (name : String) (val : R), Session.map_act (AgentAction.setParam name val) = SimAction.setParam name val) ∧
    Session.map_act (AgentAction.noop : AgentAction R) = SimAction.noop :=
  ⟨fun _ => rfl, rfl, fun _ _ _ => rfl, fun _ => rfl, fun _ _ => rfl, fun _ _ => rfl,
   fun _ _ => rfl, rfl⟩

/-- Claim C9: a tick on a Session whose world has no experimentable
extension never consults the agent: the result is the same session with the
world advanced by step() and the counter incremented, no discovery, and the
agent state untouched.  This is a total, non-failing path. -/
theorem C9_capability_mode (σ α R : Type) (stepf : σ → σ) (gst : σ → SimState R)
    (simst : σ) (agI : Agent α R) (a : α) (n : ℕ) :
    Session.tick (⟨⟨stepf, gst, Option.none⟩, simst, agI, a, n⟩ : Session σ α R) =
      ((⟨⟨stepf, gst, Option.none⟩, stepf simst, agI, a, n + 1⟩ : Session σ α R), Option.none) :=
  rfl

/-- Claim C10: an act() call of the curiosity agent on a non-StateVec
observation (GridSummary or None) returns the agent record completely
unchanged together with Noop and no discovery; in particular no table, no
memory field and no exploration decay is touched. -/
theorem C10_non_statevec_frame (fns : FloatFns) (ag : QLearningAgent) (r : ℚ) (n : ℕ)
    (r1 r2 : ℚ) :
    (∀ w h : ℕ, act fns ag (AgentObservation.gridSummary w h) r n r1 r2 =
      (ag, AgentAction.noop, Option.none)) ∧
    act fns ag AgentObservation.none r n r1 r2 = (ag, AgentAction.noop, Option.none) :=
  ⟨fun _ _ => rfl, rfl⟩

/-- Claim C4 (amended): on a StateVec observation the discovery of an act()
call is an Insight exactly when the surprise exceeds 25 and the step count
is a multiple of 60, and is absent otherwise; the agent never emits a Text
discovery.  (At most one discovery per tick is immediate from the Option
result type.) -/
theorem C4_report_rule (fns : FloatFns) (ag : QLearningAgent) (s : V3 ℚ) (r : ℚ) (n : ℕ)
    (r1 r2 : ℚ) :
    (act fns ag (AgentObservation.stateVec s) r n r1 r2).2.2 =
      (if surpriseOf fns ag s > 25 ∧ n % 60 = 0 then
        some (DiscoveryEvent.insight "Anomaly Detected" (insightContent (surpriseOf fns ag s / 5)))
      else Option.none) ∧
    ∀ str : String,
      (act fns ag (AgentObservation.stateVec s) r n r1 r2).2.2 ≠ some (DiscoveryEvent.text str) := by
  refine ⟨rfl, ?_⟩
  intro str
  rw [show (act fns ag (AgentObservation.stateVec s) r n r1 r2).2.2 =
      (if surpriseOf fns ag s > 25 ∧ n % 60 = 0 then
        some (DiscoveryEvent.insight "Anomaly Detected" (insightContent (surpriseOf fns ag s / 5)))
      else Option.none) from rfl]
  by_cases h : surpriseOf fns ag s > 25 ∧ n % 60 = 0
  · simp [h]
  · simp [h]

/-- Claim C5: on a StateVec observation the surprise equals the distance
between predicted and actual state scaled by the gain 5 and capped at 50
when the world model holds an entry for (previous StateKey, previous
action), and equals the first-time bonus 5 when it does not; and the
Q-value written for (previous StateKey, previous action) is the one-step
update driven by the effective reward base + surprise, with the future term
taken from get_max_q of the pre-tick table at the current StateKey. -/
theorem C5_surprise_effective_reward (fns : FloatFns) (ag : QLearningAgent) (s : V3 ℚ)
    (r : ℚ) (n : ℕ) (r1 r2 : ℚ) :
    surpriseOf fns ag s =
      (match alookup ag.world_model (ag.last_state_key, ag.last_action) with
       | some p => min (dist fns p s * 5) 50
       | Option.none => 5) ∧
    qlookup ((act fns ag (AgentObservation.stateVec s) r n r1 r2).1).q_table
        ag.last_state_key ag.last_action =
      some (fadd
        ((alookup ((alookup ag.q_table ag.last_state_key).getD []) ag.last_action).getD (F64.fin 0))
        (fmul (F64.fin ag.alpha)
          (fsub
            (fadd (F64.fin (r + surpriseOf fns ag s))
              (fmul (F64.fin ag.gamma) (get_max_q ag.q_table (discretize fns s))))
            ((alookup ((alookup ag.q_table ag.last_state_key).getD [])
              ag.last_action).getD (F64.fin 0))))) := by
  refine ⟨rfl, ?_⟩
  exact decideStep_preserves ag.q_table ag.last_state_key ag.last_action
    ((alookup ag.q_table ag.last_state_key).getD []) _ (discretize fns s) ag.epsilon r1 r2

unseal Rat.add Rat.sub Rat.mul Rat.inv in
/-- Claim C2 (code evaluation at the failing input): two act() calls from
the fresh agent on the same state.  The first call (exploit branch) writes
the learned value for the initial key and, through entry(...).or_default()
of the exploit branch, an empty action map under the new current key; the
second call then computes get_max_q over that empty map, which folds
f64::NEG_INFINITY over nothing, and writes negative infinity into the
Q-table entry, where the optimistic-zero rule of the claim and spec yields
the finite value 1/2. -/
theorem C2_neginf_write :
    get_max_q ((act fns0 QLearningAgent.new (AgentObservation.stateVec ⟨1, 0, 0⟩) 0 0 (9/10) 0).1).q_table
        (4, 0, 0) = F64.negInf ∧
    qlookup ((act fns0
        ((act fns0 QLearningAgent.new (AgentObservation.stateVec ⟨1, 0, 0⟩) 0 0 (9/10) 0).1)
        (AgentObservation.stateVec ⟨1, 0, 0⟩) 0 1 (9/10) 0).1).q_table (4, 0, 0) DiscreteAction.noop
      = some F64.negInf ∧
    fadd (F64.fin 0)
        (fmul (F64.fin (1/10))
          (fsub (fadd (F64.fin (0 + 5)) (fmul (F64.fin (9/10)) (F64.fin 0))) (F64.fin 0)))
      = F64.fin (1/2) ∧
    F64.negInf ≠ F64.fin (1/2) := by
  refine ⟨by decide, by decide, by decide, by decide⟩

unseal Rat.add Rat.sub Rat.mul Rat.inv in
/-- Claim C4 (counterexample): at step 0 — a multiple of every reporting
interval, in particular of any longer summary interval — an act() call of
the fresh agent whose surprise is the first-time bonus 5 returns no
discovery at all, so no periodic Text status summary exists; likewise at
step 120. -/
theorem C4_no_text_summary :
    (act fns0 QLearningAgent.new obs0 0 0 (9/10) 0).2.2 = Option.none ∧
    (act fns0 QLearningAgent.new obs0 0 120 (9/10) 0).2.2 = Option.none := by
  refine ⟨by decide, by decide⟩

/-- Claim C7 (amended): on a StateVec act() call the exploration rate is
multiplied by 0.995 exactly when it exceeds 0.05 and is unchanged
otherwise; it never increases, and once at or above 0.995 * 0.05 = 199/4000
it stays at or above that bound. -/
theorem C7_epsilon_decay (fns : FloatFns) (ag : QLearningAgent) (s : V3 ℚ) (r : ℚ)
    (n : ℕ) (r1 r2 : ℚ) :
    ((act fns ag (AgentObservation.stateVec s) r n r1 r2).1.epsilon =
      if 1/20 < ag.epsilon then ag.epsilon * (199/200) else ag.epsilon) ∧
    (act fns ag (AgentObservation.stateVec s) r n r1 r2).1.epsilon ≤ ag.epsilon ∧
    (199/4000 ≤ ag.epsilon →
      199/4000 ≤ (act fns ag (AgentObservation.stateVec s) r n r1 r2).1.epsilon) := by
  refine ⟨rfl, ?_, ?_⟩
  · rw [act_epsilon, decayEps]
    by_cases h : (1:ℚ)/20 < ag.epsilon
    · rw [if_pos h]; nlinarith
    · rw [if_neg h]
  · intro hge
    rw [act_epsilon, decayEps]
    by_cases h : (1:ℚ)/20 < ag.epsilon
    · rw [if_pos h]; nlinarith
    · rw [if_neg h]; exact hge

/-- Claim C7 witness: the bound hypothesis discharged at the fresh agent
(epsilon 1/2) on the zero observation. -/
theorem C7_epsilon_decay_witness :
    (199:ℚ)/4000 ≤ (QLearningAgent.new).epsilon ∧
    (199:ℚ)/4000 ≤ (act fns0 QLearningAgent.new obs0 0 0 (9/10) 0).1.epsilon := by
  have hnew : (QLearningAgent.new).epsilon = 1/2 := rfl
  refine ⟨by rw [hnew]; norm_num, ?_⟩
  exact (C7_epsilon_decay fns0 QLearningAgent.new ⟨0, 0, 0⟩ 0 0 (9/10) 0).2.2
    (by rw [hnew]; norm_num)

/-- Claim C7 (counterexample): 460 act() calls from the fresh agent bring
the exploration rate strictly below the 0.05 guard value, because the guard
is checked before the multiplication: the rate ends between 0.04975 and
0.05. -/
theorem C7_epsilon_below_guard :
    (agentIter fns0 (AgentObservation.stateVec ⟨0, 0, 0⟩) 0 (9/10) 0 460 QLearningAgent.new).epsilon
      < 1/20 := by
  rw [agentIter_epsilon]
  rw [show (QLearningAgent.new).epsilon = 1/2 from rfl]
  have h459 : decayEps^[459] (1/2 : ℚ) = 1/2 * (199/200) ^ 459 :=
    decay_pow_iter (1/2) (by norm_num) 459 (by norm_num)
  rw [show (460:ℕ) = 459 + 1 from rfl, Function.iterate_succ_apply', h459, decayEps,
    if_pos (show (1:ℚ)/20 < 1/2 * (199/200) ^ 459 by norm_num)]
  norm_num

/-- Claim C6: a Session built from any world whose experimentable extension
ignores Noop (no actions applied) and the no-op baseline agent reaches a
step counter of exactly 100 after 100 ticks, with the world state identical
to 100 direct step() calls. -/
theorem C6_noop_baseline_session (σ R : Type) (w : World σ R) (s0 : σ)
    (h : ∀ exp, w.experimentable = some exp → ∀ st, exp.apply_action st SimAction.noop = st) :
    (tickIter 100 (Session.new w s0 GardenerAgent ())).step_count = 100 ∧
    (tickIter 100 (Session.new w s0 GardenerAgent ())).sim = w.step^[100] s0 := by
  rw [gardener_tickIter w h s0 100]
  exact ⟨rfl, rfl⟩

/-- Claim C6 witness: the Noop hypothesis discharged at a concrete
unit-increment world over the naturals. -/
theorem C6_noop_baseline_session_witness :
    (tickIter 100 (Session.new natWorld 0 GardenerAgent ())).step_count = 100 ∧
    (tickIter 100 (Session.new natWorld 0 GardenerAgent ())).sim = Nat.succ^[100] 0 := by
  have h : ∀ exp, natWorld.experimentable = some exp →
      ∀ st, exp.apply_action st SimAction.noop = st := by
    intro exp he st
    rw [show natWorld.experimentable =
        some ⟨fun st _ => st, fun _ => SimObservation.none, fun _ => (0:ℚ)⟩ from rfl] at he
    injection he with h2
    subst h2
    rfl
  exact C6_noop_baseline_session ℕ ℚ natWorld 0 h

/-- Claim C3 (counterexample): at the axis value 1/5 the code computes the
bucket 0 (truncation toward zero of 4 ln(6/5), a value strictly between 1/2
and 1), while the rounding formula of the claim yields 1. -/
theorem C3_trunc_vs_round :
    foveateRel (1/5 : ℝ) 0 ∧
    round ((if (1/5 : ℝ) < 0 then (-1 : ℝ) else 1) * Real.log (|(1/5 : ℝ)| + 1) * 4) = (1 : ℤ) ∧
    (0 : ℤ) ≠ 1 := by
  have hif : (if (1/5 : ℝ) < 0 then (-1 : ℝ) else 1) = 1 := if_neg (by norm_num)
  have habs : |(1/5 : ℝ)| + 1 = 6/5 := by
    rw [abs_of_nonneg (by norm_num : (0:ℝ) ≤ 1/5)]
    norm_num
  have hL1 : (1/8 : ℝ) ≤ Real.log (6/5) := log_sixfifths_ge
  have hL2 : Real.log (6/5) < 1/4 := log_sixfifths_lt
  refine ⟨?_, ?_, by decide⟩
  · simp only [foveateRel]
    rw [hif, habs]
    have h0 : (0:ℝ) ≤ 1 * Real.log (6/5) * 4 := by nlinarith
    rw [if_pos h0]
    have hfl : ⌊(1:ℝ) * Real.log (6/5) * 4⌋ = 0 := by
      rw [Int.floor_eq_zero_iff]
      exact ⟨by nlinarith, by nlinarith⟩
    rw [hfl]
    decide
  · rw [hif, habs, round_eq, Int.floor_eq_iff]
    constructor
    · push_cast
      nlinarith
    · push_cast
      nlinarith

/-- Claim C3 (amended): the per-axis discretization is a total deterministic
function of the input (so equal inputs always produce the identical joined
StateKey), and the integer it produces is the truncation toward zero of
sign(v) * ln(1 + |v|) * 4 whenever that value lies inside the i32 range:
for a nonnegative value t the integer n satisfies n ≤ t < n + 1, for a
negative t it satisfies n - 1 < t ≤ n. -/
theorem C3_truncating_discretization :
    (∀ v : ℝ, ∃! n : ℤ, foveateRel v n) ∧
    (∀ (s : V3 ℝ) (k k' : StateKey), discretizeRel s k → discretizeRel s k' → k = k') ∧
    (∀ (v : ℝ) (n : ℤ) (t : ℝ),
      t = (if v < 0 then (-1 : ℝ) else 1) * Real.log (|v| + 1) * 4 →
      foveateRel v n → 0 ≤ t → t < 2 ^ 31 → (n : ℝ) ≤ t ∧ t < (n : ℝ) + 1) ∧
    (∀ (v : ℝ) (n : ℤ) (t : ℝ),
      t = (if v < 0 then (-1 : ℝ) else 1) * Real.log (|v| + 1) * 4 →
      foveateRel v n → t < 0 → -(2 ^ 31) < t → ((n : ℝ) - 1 < t ∧ t ≤ (n : ℝ))) := by
  refine ⟨?_, ?_, ?_, ?_⟩
  · intro v
    refine ⟨max (-(2 ^ 31)) (min (2 ^ 31 - 1)
      (if 0 ≤ (if v < 0 then (-1 : ℝ) else 1) * Real.log (|v| + 1) * 4
       then ⌊(if v < 0 then (-1 : ℝ) else 1) * Real.log (|v| + 1) * 4⌋
       else -⌊-((if v < 0 then (-1 : ℝ) else 1) * Real.log (|v| + 1) * 4)⌋)), ?_, ?_⟩
    · rfl
    · intro m hm
      exact hm
  · intro s k k' h1 h2
    rcases k with ⟨x1, x2, x3⟩
    rcases k' with ⟨y1, y2, y3⟩
    obtain ⟨a1, a2, a3⟩ := h1
    obtain ⟨b1, b2, b3⟩ := h2
    have e1 : x1 = y1 := Eq.trans a1 (Eq.symm b1)
    have e2 : x2 = y2 := Eq.trans a2 (Eq.symm b2)
    have e3 : x3 = y3 := Eq.trans a3 (Eq.symm b3)
    rw [e1, e2, e3]
  · intro v n t ht hrel h0 hlt
    have hn : n = max (-(2 ^ 31)) (min (2 ^ 31 - 1)
        (if 0 ≤ (if v < 0 then (-1 : ℝ) else 1) * Real.log (|v| + 1) * 4
         then ⌊(if v < 0 then (-1 : ℝ) else 1) * Real.log (|v| + 1) * 4⌋
         else -⌊-((if v < 0 then (-1 : ℝ) else 1) * Real.log (|v| + 1) * 4)⌋)) := hrel
    rw [← ht, if_pos h0] at hn
    have hfl_lt : ⌊t⌋ < 2 ^ 31 := by
      rw [Int.floor_lt]
      exact_mod_cast hlt
    have hfl_nonneg : (0:ℤ) ≤ ⌊t⌋ := Int.floor_nonneg.2 h0
    have hmin : min (2 ^ 31 - 1) ⌊t⌋ = ⌊t⌋ := min_eq_right (by omega)
    have hmax : max (-(2 ^ 31) : ℤ) ⌊t⌋ = ⌊t⌋ := max_eq_right (by omega)
    rw [hmin, hmax] at hn
    rw [hn]
    exact ⟨Int.floor_le t, Int.lt_floor_add_one t⟩
  · intro v n t ht hrel hneg hgt
    have hn : n = max (-(2 ^ 31)) (min (2 ^ 31 - 1)
        (if 0 ≤ (if v < 0 then (-1 : ℝ) else 1) * Real.log (|v| + 1) * 4
         then ⌊(if v < 0 then (-1 : ℝ) else 1) * Real.log (|v| + 1) * 4⌋
         else -⌊-((if v < 0 then (-1 : ℝ) else 1) * Real.log (|v| + 1) * 4)⌋)) := hrel
    rw [← ht, if_neg (not_le.2 hneg)] at hn
    have h1 : (0:ℤ) ≤ ⌊-t⌋ := Int.floor_nonneg.2 (by linarith)
    have h2 : ⌊-t⌋ < 2 ^ 31 := by
      rw [Int.floor_lt]
      exact_mod_cast (by linarith : -t < (2 ^ 31 : ℝ))
    have hmin : min (2 ^ 31 - 1) (-⌊-t⌋) = -⌊-t⌋ := min_eq_right (by omega)
    have hmax : max (-(2 ^ 31) : ℤ) (-⌊-t⌋) = -⌊-t⌋ := max_eq_right (by omega)
    rw [hmin, hmax] at hn
    rw [hn]
    constructor
    · push_cast
      have hc := Int.lt_floor_add_one (-t)
      linarith
    · push_cast
      have hc := Int.floor_le (-t)
      linarith

/-- Claim C3 witness: totality and the truncation bounds discharged at the
axis value 0, which maps to the bucket 0. -/
theorem C3_truncating_discretization_witness :
    (∃! n : ℤ, foveateRel 0 n) ∧ (((0:ℤ) : ℝ) ≤ 0 ∧ (0:ℝ) < ((0:ℤ) : ℝ) + 1) := by
  refine ⟨C3_truncating_discretization.1 0, ?_⟩
  refine C3_truncating_discretization.2.2.1 0 0 0 ?_ foveateRel_zero le_rfl (by norm_num)
  simp [Real.log_one]
